import Mathlib

/-!
Shallow embedding of the KSD monitoring dashboard's log reader / aggregator
(`ksddash.py`) and of the synthetic log generator (`gen_data.py`).

Modelling conventions:

* A log file line is represented by its colon-split fields (`Line := List String`):
  the reader's `line.strip().split(':')` becomes the identity on this
  representation, and the generator only ever joins colon-free fields with `':'`.
  Malformed lines (wrong field count, non-integer field) stay representable.
* `datetime` values are modelled as epoch seconds (`Nat`).  The minute stamp
  `strftime('%m%d%H%M')` of a time `t` is modelled by the minute index `t / 60`,
  and the second-precision pair `strftime('%Y%m%d%H%M%S')` /
  `datetime.strptime(.., '%Y%m%d%H%M%S')` by the decimal rendering `renderTS`
  and the digit-string parser `parseTS` (an injective rendering with
  `parseTS (renderTS t) = some t`, failing on non-digit data, exactly the
  structure the source's format pair has at second precision).
* The file names `{s|r}[.tran].ksd653.log.{MMDDHHmm}` are injective in the
  direction letter, the `tran` infix and the stamp, so they are modelled by the
  structured key `LogFileName`; the file system is a partial map from those
  keys to file contents plus an mtime.
* Python exceptions are modelled with `Except String`: the body of a
  `try:` block becomes a `..._body` function returning `Except`, and the
  surrounding `except:` clause becomes a `match` on that result in the outer
  function.  A raised and uncaught exception is an `.error` value.
* pandas float arithmetic (`count / total * 100`) is modelled exactly over `ℚ`.
-/

deriving instance DecidableEq for Except

/-- One log file line, given by its colon-split fields. -/
abbrev Line := List String

/-- Contents of one log file: its lines plus the file's mtime
(`os.path.getmtime`), in epoch seconds. -/
structure LogFile where
  lines : List Line
  mtime : Nat
deriving DecidableEq

/-- Structured model of the file name `{dir}{.tran if isTran}.ksd653.log.{stamp}`:
the direction letter (`"s"` or `"r"`), whether the `tran` infix is present, and
the `MMDDHHmm` minute stamp (modelled as the minute index). -/
structure LogFileName where
  dir : String
  isTran : Bool
  stamp : Nat
deriving DecidableEq

/-- The test-data directory, as a partial map from file names to contents. -/
abbrev FileSystem := LogFileName → Option LogFile

/-- The static `KSD_BUSINESS_NAMES` code-to-label table of `ksddash.py`. -/
def KSD_BUSINESS_NAMES : List (String × String) :=
  [("631", "주식 매수"), ("632", "주식 매도"), ("633", "잔고 조회"),
   ("634", "계좌 조회"), ("635", "시세 조회"), ("636", "체결 확인"),
   ("637", "예탁금 조회"), ("638", "거래내역 조회"), ("639", "계좌이체"),
   ("640", "신용거래")]

/-- The fallback label `'미정의 업무'` ("undefined business") used by
`KSD_BUSINESS_NAMES.get(code, '미정의 업무')`. -/
def undefinedBusiness : String := "미정의 업무"

/-- `KSD_BUSINESS_NAMES.get(code, '미정의 업무')`. -/
def businessName (code : String) : String :=
  (KSD_BUSINESS_NAMES.lookup code).getD undefinedBusiness

/-- The ten codes present in the static table. -/
def knownCodes : List String := KSD_BUSINESS_NAMES.map (·.1)

/-- Numeric value of a decimal digit character. -/
def charDigit (c : Char) : Nat := c.toNat - 48

/-- Value of a most-significant-first decimal digit string. -/
def digitsVal (cs : List Char) : Nat := cs.foldl (fun n c => n * 10 + charDigit c) 0

/-- Model of Python's `int(s)`: an optional sign followed by at least one
decimal digit; anything else raises `ValueError` (modelled as `none`). -/
def strToInt? (s : String) : Option Int :=
  match s.data with
  | '-' :: cs => if cs ≠ [] ∧ cs.all (·.isDigit) then some (-(digitsVal cs : Int)) else none
  | cs => if cs ≠ [] ∧ cs.all (·.isDigit) then some ((digitsVal cs : Int)) else none

/-- Decimal digit characters of `n`, least significant first; the first
argument is fuel making the recursion structural (any fuel `≥ n` is enough). -/
def decDigitsAux : Nat → Nat → List Char
  | _, 0 => []
  | 0, _ + 1 => []
  | fuel + 1, n + 1 => Nat.digitChar ((n + 1) % 10) :: decDigitsAux fuel ((n + 1) / 10)

/-- Model of `strftime('%Y%m%d%H%M%S')`: the second-precision rendering of a
time, modelled as its decimal digit string. -/
def renderTS (t : Nat) : String := String.mk (decDigitsAux t t).reverse

/-- Model of `datetime.strptime(s, '%Y%m%d%H%M%S')`: parses a non-empty digit
string back to a time, and rejects anything else. -/
def parseTS (s : String) : Option Nat :=
  if s.data ≠ [] ∧ s.data.all (·.isDigit) then some (digitsVal s.data) else none

/-- A parsed summary line, as built in `read_summary_log`'s loop:
`{'ksd_code': code, 'business_name': ..., 'count': int(count)}`. -/
structure SummaryRecord where
  ksd_code : String
  business_name : String
  count : Int
deriving DecidableEq

/-- A summary record after the `percentage` column is added. -/
structure SummaryRow where
  ksd_code : String
  business_name : String
  count : Int
  percentage : ℚ
deriving DecidableEq

/-- A parsed transaction line, as built in `read_transaction_log`'s loop. -/
structure TranRecord where
  timestamp : Nat
  result_file : String
  ksd_code : String
  business_name : String
  direction : String
deriving DecidableEq

/-- `code, count = line.strip().split(':')` followed by `int(count)`:
exactly two fields are required and the second must be an integer literal;
anything else raises (modelled as `.error`). -/
def parseSummaryLine (line : Line) : Except String SummaryRecord :=
  match line with
  | [code, countStr] =>
    match strToInt? countStr with
    | some n => .ok { ksd_code := code, business_name := businessName code, count := n }
    | none => .error "invalid literal for int"
  | _ => .error "values to unpack"

/-- The `for line in f` accumulation loop of `read_summary_log`: parses each
line in order; the first exception aborts the whole read. -/
def parseSummaryLines : List Line → Except String (List SummaryRecord)
  | [] => .ok []
  | l :: ls =>
    match parseSummaryLine l with
    | .error e => .error e
    | .ok r =>
      match parseSummaryLines ls with
      | .error e => .error e
      | .ok rs => .ok (r :: rs)

/-- `df['count'].sum()`. -/
def summaryTotal (data : List SummaryRecord) : Int := (data.map (·.count)).sum

/-- One row of `df` after `df['percentage'] = df['count'] / total * 100`. -/
def toSummaryRow (total : ℚ) (r : SummaryRecord) : SummaryRow :=
  { ksd_code := r.ksd_code, business_name := r.business_name, count := r.count,
    percentage := (r.count : ℚ) / total * 100 }

/-- `df['percentage'] = df['count'] / total * 100` over the whole frame. -/
def addPercentage (data : List SummaryRecord) : List SummaryRow :=
  data.map (toSummaryRow (summaryTotal data : ℚ))

/-- `'s' if is_send else 'r'`. -/
def dirLetter (is_send : Bool) : String := if is_send then "s" else "r"

/-- The `try:` block of `KSDMonitor.read_summary_log`: look up the summary file
for the current minute stamp; a missing file yields the empty result; otherwise
parse every line (any malformed line raises), and if any data was parsed attach
percentages and the file's mtime. -/
def read_summary_body (fs : FileSystem) (nowStamp : Nat) (is_send : Bool) :
    Except String (List SummaryRow × Option Nat) :=
  match fs ⟨dirLetter is_send, false, nowStamp⟩ with
  | none => .ok ([], none)
  | some file =>
    match parseSummaryLines file.lines with
    | .error e => .error e
    | .ok data =>
      if data = [] then .ok ([], none)
      else .ok (addPercentage data, some file.mtime)

/-- `KSDMonitor.read_summary_log`: the `try:` body together with the
`except Exception:` clause, which logs and returns `(pd.DataFrame(), None)`. -/
def read_summary_log (fs : FileSystem) (nowStamp : Nat) (is_send : Bool) :
    List SummaryRow × Option Nat :=
  match read_summary_body fs nowStamp is_send with
  | .ok r => r
  | .error _ => ([], none)

/-- `timestamp, result_file, code, tran_type = line.strip().split(':')` plus
`datetime.strptime(timestamp, '%Y%m%d%H%M%S')`: exactly four fields, the first
a well-formed second-precision timestamp; anything else raises. -/
def parseTranLine (line : Line) : Except String TranRecord :=
  match line with
  | [ts, rf, code, tranType] =>
    match parseTS ts with
    | some t => .ok { timestamp := t, result_file := rf, ksd_code := code,
                      business_name := businessName code, direction := tranType }
    | none => .error "time data does not match format"
  | _ => .error "values to unpack"

/-- The `for line in f` loop of `read_transaction_log` over one file. -/
def parseTranLines : List Line → Except String (List TranRecord)
  | [] => .ok []
  | l :: ls =>
    match parseTranLine l with
    | .error e => .error e
    | .ok r =>
      match parseTranLines ls with
      | .error e => .error e
      | .ok rs => .ok (r :: rs)

/-- `['s'] if direction == 'SEND' else ['r'] if direction == 'RECV' else ['s', 'r']`. -/
def dirLetters (direction : Option String) : List String :=
  if direction = some "SEND" then ["s"]
  else if direction = some "RECV" then ["r"]
  else ["s", "r"]

/-- One `os.path.exists` probe and read of the transaction file for direction
letter `p` at loop time `cur`: a missing file is skipped silently. -/
def readTranFile (fs : FileSystem) (p : String) (cur : Nat) :
    Except String (List TranRecord) :=
  match fs ⟨p, true, cur / 60⟩ with
  | none => .ok []
  | some file => parseTranLines file.lines

/-- The `for prefix in (...)` loop of `read_transaction_log` at one loop time. -/
def readTranFiles (fs : FileSystem) (cur : Nat) :
    List String → Except String (List TranRecord)
  | [] => .ok []
  | p :: ps =>
    match readTranFile fs p cur with
    | .error e => .error e
    | .ok here =>
      match readTranFiles fs cur ps with
      | .error e => .error e
      | .ok there => .ok (here ++ there)

/-- Fuel-indexed unrolling of the loop
`while current <= end_time: ... current += timedelta(minutes=1)`; any fuel
of at least `stop + 1 - start` suffices, since `current` grows by 60 each
iteration. -/
def visitedTimesAux : Nat → Nat → Nat → List Nat
  | 0, _, _ => []
  | fuel + 1, start, stop =>
    if start ≤ stop then start :: visitedTimesAux fuel (start + 60) stop else []

/-- The successive values of `current` in
`while current <= end_time: ... current += timedelta(minutes=1)`. -/
def visitedTimes (start stop : Nat) : List Nat :=
  visitedTimesAux (stop + 1 - start) start stop

/-- The minute stamps of the files that the `while` loop consults. -/
def visitedMinutes (start stop : Nat) : List Nat :=
  (visitedTimes start stop).map (· / 60)

/-- The `while` loop of `read_transaction_log`, iterated over its successive
`current` values: record lists are concatenated in loop order. -/
def readTranMinutes (fs : FileSystem) (direction : Option String) :
    List Nat → Except String (List TranRecord)
  | [] => .ok []
  | cur :: rest =>
    match readTranFiles fs cur (dirLetters direction) with
    | .error e => .error e
    | .ok here =>
      match readTranMinutes fs direction rest with
      | .error e => .error e
      | .ok later => .ok (here ++ later)

/-- The `try:` block of `KSDMonitor.read_transaction_log`. -/
def read_transaction_body (fs : FileSystem) (start_time end_time : Nat)
    (direction : Option String) : Except String (List TranRecord) :=
  readTranMinutes fs direction (visitedTimes start_time end_time)

/-- `KSDMonitor.read_transaction_log`: the `try:` body together with the
`except Exception:` clause, which logs and returns `pd.DataFrame()`. -/
def read_transaction_log (fs : FileSystem) (start_time end_time : Nat)
    (direction : Option String) : List TranRecord :=
  match read_transaction_body fs start_time end_time direction with
  | .ok rows => rows
  | .error _ => []

/-- The synthetic `'TOTAL'` pseudo-row built in `create_metrics_html`:
`{'ksd_code': 'TOTAL', 'business_name': '총 발생건수', 'count': df['count'].sum(),
'percentage': 100.0}`. -/
def totalRow (df : List SummaryRow) : SummaryRow :=
  { ksd_code := "TOTAL", business_name := "총 발생건수",
    count := (df.map (·.count)).sum, percentage := 100 }

/-- Insertion step of the by-count descending sort. -/
def insertByCountDesc (r : SummaryRow) : List SummaryRow → List SummaryRow
  | [] => [r]
  | x :: xs => if x.count ≤ r.count then r :: x :: xs else x :: insertByCountDesc r xs

/-- `df.sort_values('count', ascending=False)`: the rows reordered by
non-increasing count (the source's sort is unstable, so the order among equal
counts is unspecified there; this insertion sort is one faithful choice). -/
def sortByCountDesc : List SummaryRow → List SummaryRow
  | [] => []
  | x :: xs => insertByCountDesc x (sortByCountDesc xs)

/-- The display table of `create_metrics_html`:
`pd.concat([pd.DataFrame([TOTAL row]), df.sort_values('count', ascending=False)])`. -/
def data_with_total (df : List SummaryRow) : List SummaryRow :=
  totalRow df :: sortByCountDesc df

/-- The hand-picked send-side summary lines written by `generate_test_data`. -/
def send_summary : List Line :=
  [["631", "150"], ["632", "200"], ["633", "180"], ["634", "120"], ["635", "90"],
   ["636", "110"], ["637", "85"], ["638", "95"], ["639", "75"], ["640", "60"]]

/-- The hand-picked receive-side summary lines written by `generate_test_data`. -/
def recv_summary : List Line :=
  [["631", "145"], ["632", "195"], ["633", "175"], ["634", "115"], ["635", "85"],
   ["636", "105"], ["637", "80"], ["638", "90"], ["639", "70"], ["640", "55"]]

/-- `i` zero-padded to width 4 (Python `:04d` formatting). -/
def pad4 (n : Nat) : String :=
  String.mk (List.replicate (4 - (toString n).length) '0') ++ toString n

/-- The random draws of one iteration of the generator's `for i in range(20)`
loop: `random.randint(0, 59)` for the shared second offset, and one
`random.randint(1, 9)` code digit for each direction. -/
structure TranDraw where
  off : Nat
  sendDigit : Nat
  recvDigit : Nat

/-- One generated transaction line
`f"{timestamp_str}:aaaa코드bbbb_{i:04d}:{code}:{direction}"`, where
`timestamp = current_time - timedelta(seconds=off)` and `code = f"63{digit}"`. -/
def genTranLine (t i off digit : Nat) (direction : String) : Line :=
  [renderTS (t - off), "aaaa코드bbbb_" ++ pad4 i, "63" ++ toString digit, direction]

/-- The transaction lines of one direction built by the generator's loop. -/
def genTranLines (t : Nat) (draws : List TranDraw) (isSend : Bool) : List Line :=
  draws.enum.map fun p =>
    genTranLine t p.1 p.2.off (if isSend then p.2.sendDigit else p.2.recvDigit)
      (if isSend then "SEND" else "RECV")

/-- Strict lexicographic comparison of code-point sequences (Python `str <`). -/
def charsLt : List Char → List Char → Bool
  | [], [] => false
  | [], _ :: _ => true
  | _ :: _, [] => false
  | a :: as, b :: bs => if a = b then charsLt as bs else decide (a.toNat < b.toNat)

/-- Lexicographic comparison of lines by their fields, modelling Python's
`sorted` of the joined line strings. -/
def fieldsLe : List String → List String → Bool
  | [], _ => true
  | _ :: _, [] => false
  | a :: as, b :: bs => if a = b then fieldsLe as bs else charsLt a.data b.data

/-- Insertion step of `sorted`. -/
def insertLine (l : Line) : List Line → List Line
  | [] => [l]
  | x :: xs => if fieldsLe l x then l :: x :: xs else x :: insertLine l xs

/-- `sorted(transactions)`: the generated lines in lexicographically sorted
order (an insertion sort; only the resulting multiset matters below). -/
def sortLines : List Line → List Line
  | [] => []
  | x :: xs => insertLine x (sortLines xs)

/-- The nine codes `f"63{random.randint(1,9)}"` the generator can draw. -/
def codes631to639 : List String :=
  ["631", "632", "633", "634", "635", "636", "637", "638", "639"]

/-- `generate_test_data`: the four files written for the current minute.
`t` is `current_time` (with `second=0`, so `t % 60 = 0`), `draws` the random
draws of the 20 loop iterations, `mt` the files' mtime. -/
def generate_test_data (t : Nat) (draws : List TranDraw) (mt : Nat) : FileSystem :=
  fun name =>
    if name = ⟨"s", false, t / 60⟩ then some ⟨send_summary, mt⟩
    else if name = ⟨"r", false, t / 60⟩ then some ⟨recv_summary, mt⟩
    else if name = ⟨"s", true, t / 60⟩ then some ⟨sortLines (genTranLines t draws true), mt⟩
    else if name = ⟨"r", true, t / 60⟩ then some ⟨sortLines (genTranLines t draws false), mt⟩
    else none

/-- Fixture: the spec's example summary file holding `631:150` and `632:200`,
for minute stamp 0. -/
def exampleSummaryFS : FileSystem :=
  fun n => if n = ⟨"s", false, 0⟩ then some ⟨[["631", "150"], ["632", "200"]], 0⟩ else none

/-- Fixture: a summary file whose second line is malformed (a single field). -/
def malformedSummaryFS : FileSystem :=
  fun n => if n = ⟨"s", false, 0⟩ then some ⟨[["631", "150"], ["632"]], 0⟩ else none

/-- Fixture: a summary file holding a code outside the static table. -/
def unknownCodeFS : FileSystem :=
  fun n => if n = ⟨"s", false, 0⟩ then some ⟨[["999", "10"]], 0⟩ else none

/-- Fixture: a send transaction file for minute 1 whose single record carries
timestamp 0, far outside minute 1. -/
def outOfRangeTranFS : FileSystem :=
  fun n => if n = ⟨"s", true, 1⟩ then some ⟨[["0", "rf", "631", "SEND"]], 0⟩ else none

/-- Fixture: a send transaction file for minute 1 with one well-formed record
followed by one malformed line. -/
def abortTranFS : FileSystem :=
  fun n => if n = ⟨"s", true, 1⟩ then some ⟨[["0", "rf", "631", "SEND"], ["bad"]], 0⟩ else none

/-- Fixture: two display rows listed in ascending count order. -/
def c7df : List SummaryRow :=
  [⟨"631", "주식 매수", 1, 50⟩, ⟨"632", "주식 매도", 2, 50⟩]

/-- Fixture: 20 concrete random draws, all within the `randint` ranges of the
generator. -/
def exampleDraws : List TranDraw :=
  [⟨0, 1, 9⟩, ⟨59, 2, 8⟩, ⟨3, 3, 7⟩, ⟨14, 4, 6⟩, ⟨25, 5, 5⟩,
   ⟨36, 6, 4⟩, ⟨47, 7, 3⟩, ⟨58, 8, 2⟩, ⟨9, 9, 1⟩, ⟨10, 1, 1⟩,
   ⟨11, 2, 2⟩, ⟨12, 3, 3⟩, ⟨13, 4, 4⟩, ⟨44, 5, 5⟩, ⟨15, 6, 6⟩,
   ⟨16, 7, 7⟩, ⟨17, 8, 8⟩, ⟨18, 9, 9⟩, ⟨19, 1, 2⟩, ⟨20, 3, 4⟩]

/-! ## Helper lemmas -/

theorem visitedTimesAux_congr :
    ∀ f1 f2 start stop, stop + 1 - start ≤ f1 → stop + 1 - start ≤ f2 →
      visitedTimesAux f1 start stop = visitedTimesAux f2 start stop := by
  intro f1
  induction f1 with
  | zero =>
    intro f2 start stop h1 _
    have hns : ¬ start ≤ stop := by omega
    cases f2 with
    | zero => rfl
    | succ g => simp [visitedTimesAux, hns]
  | succ g1 ih =>
    intro f2 start stop h1 h2
    cases f2 with
    | zero =>
      have hns : ¬ start ≤ stop := by omega
      simp [visitedTimesAux, hns]
    | succ g2 =>
      by_cases hs : start ≤ stop
      · simp only [visitedTimesAux, if_pos hs]
        rw [ih g2 (start + 60) stop (by omega) (by omega)]
      · simp [visitedTimesAux, hs]

theorem visitedTimes_unfold (start stop : Nat) :
    visitedTimes start stop =
      if start ≤ stop then start :: visitedTimes (start + 60) stop else [] := by
  by_cases hs : start ≤ stop
  · rw [if_pos hs]
    show visitedTimesAux (stop + 1 - start) start stop = _
    have h1 : stop + 1 - start = (stop - start) + 1 := by omega
    rw [h1]
    simp only [visitedTimesAux, if_pos hs]
    exact congrArg (start :: ·)
      (visitedTimesAux_congr (stop - start) (stop + 1 - (start + 60)) (start + 60) stop
        (by omega) (by omega))
  · rw [if_neg hs]
    show visitedTimesAux (stop + 1 - start) start stop = []
    have h0 : stop + 1 - start = 0 := by omega
    rw [h0]
    rfl

theorem mem_visitedTimes :
    ∀ (k start stop : Nat), start + 60 * k ≤ stop → start + 60 * k ∈ visitedTimes start stop := by
  intro k
  induction k with
  | zero =>
    intro start stop h
    rw [visitedTimes_unfold, if_pos (by omega)]
    simp
  | succ k ih =>
    intro start stop h
    rw [visitedTimes_unfold, if_pos (by omega)]
    have he : start + 60 * (k + 1) = (start + 60) + 60 * k := by ring
    rw [he]
    exact List.mem_cons_of_mem _ (ih (start + 60) stop (by omega))

theorem parseSummaryLine_ok_bn {l : Line} {r : SummaryRecord}
    (h : parseSummaryLine l = .ok r) : r.business_name = businessName r.ksd_code := by
  unfold parseSummaryLine at h
  split at h
  · split at h
    · cases h; rfl
    · exact Except.noConfusion h
  · exact Except.noConfusion h

theorem parseSummaryLines_length :
    ∀ {ls : List Line} {rs : List SummaryRecord},
      parseSummaryLines ls = .ok rs → rs.length = ls.length := by
  intro ls
  induction ls with
  | nil => intro rs h; cases h; rfl
  | cons l ls ih =>
    intro rs h
    unfold parseSummaryLines at h
    cases h1 : parseSummaryLine l with
    | error e => rw [h1] at h; exact Except.noConfusion h
    | ok r =>
      rw [h1] at h
      cases h2 : parseSummaryLines ls with
      | error e => rw [h2] at h; exact Except.noConfusion h
      | ok rs2 =>
        rw [h2] at h
        cases h
        simp [ih h2]

theorem parseSummaryLines_mem_bn :
    ∀ {ls : List Line} {rs : List SummaryRecord},
      parseSummaryLines ls = .ok rs → ∀ r ∈ rs, r.business_name = businessName r.ksd_code := by
  intro ls
  induction ls with
  | nil => intro rs h; cases h; intro r hr; exact absurd hr (List.not_mem_nil r)
  | cons l ls ih =>
    intro rs h
    unfold parseSummaryLines at h
    cases h1 : parseSummaryLine l with
    | error e => rw [h1] at h; exact Except.noConfusion h
    | ok r0 =>
      rw [h1] at h
      cases h2 : parseSummaryLines ls with
      | error e => rw [h2] at h; exact Except.noConfusion h
      | ok rs2 =>
        rw [h2] at h
        cases h
        intro r hr
        rcases List.mem_cons.1 hr with h3 | h3
        · subst h3; exact parseSummaryLine_ok_bn h1
        · exact ih h2 r h3

theorem parseSummaryLines_error_of_mem :
    ∀ {ls : List Line} {l : Line} {e : String}, l ∈ ls → parseSummaryLine l = .error e →
      ∃ e2, parseSummaryLines ls = .error e2 := by
  intro ls
  induction ls with
  | nil => intro l e hl _; exact absurd hl (List.not_mem_nil l)
  | cons l0 ls ih =>
    intro l e hl herr
    rcases List.mem_cons.1 hl with h3 | h3
    · subst h3
      exact ⟨e, by unfold parseSummaryLines; rw [herr]⟩
    · cases h1 : parseSummaryLine l0 with
      | error e0 => exact ⟨e0, by unfold parseSummaryLines; rw [h1]⟩
      | ok r0 =>
        rcases ih h3 herr with ⟨e2, h2⟩
        exact ⟨e2, by unfold parseSummaryLines; rw [h1, h2]⟩

theorem businessName_not_known {code : String} (h : code ∉ knownCodes) :
    businessName code = undefinedBusiness := by
  simp only [knownCodes, KSD_BUSINESS_NAMES, List.map, List.mem_cons, List.not_mem_nil,
    or_false, not_or] at h
  obtain ⟨h1, h2, h3, h4, h5, h6, h7, h8, h9, h10⟩ := h
  simp [businessName, KSD_BUSINESS_NAMES, List.lookup,
    beq_eq_false_iff_ne.mpr h1, beq_eq_false_iff_ne.mpr h2, beq_eq_false_iff_ne.mpr h3,
    beq_eq_false_iff_ne.mpr h4, beq_eq_false_iff_ne.mpr h5, beq_eq_false_iff_ne.mpr h6,
    beq_eq_false_iff_ne.mpr h7, beq_eq_false_iff_ne.mpr h8, beq_eq_false_iff_ne.mpr h9,
    beq_eq_false_iff_ne.mpr h10, undefinedBusiness]

theorem addPercentage_counts (data : List SummaryRecord) :
    (addPercentage data).map (·.count) = data.map (·.count) := by
  simp [addPercentage, toSummaryRow]

theorem addPercentage_mem_pct {data : List SummaryRecord} {r : SummaryRow}
    (h : r ∈ addPercentage data) :
    r.percentage = (r.count : ℚ) / ((summaryTotal data : ℤ) : ℚ) * 100 := by
  rcases List.mem_map.1 h with ⟨x, _, rfl⟩
  rfl

theorem addPercentage_mem_code_bn {data : List SummaryRecord} {r : SummaryRow}
    (h : r ∈ addPercentage data) :
    ∃ x ∈ data, r.ksd_code = x.ksd_code ∧ r.business_name = x.business_name := by
  rcases List.mem_map.1 h with ⟨x, hx, rfl⟩
  exact ⟨x, hx, rfl, rfl⟩

theorem sum_map_toSummaryRow_pct (T : ℚ) (data : List SummaryRecord) :
    ((data.map (toSummaryRow T)).map (·.percentage)).sum =
      (((data.map (·.count)).sum : ℤ) : ℚ) / T * 100 := by
  induction data with
  | nil => simp
  | cons x xs ih =>
    simp only [List.map_cons, List.sum_cons, ih, toSummaryRow]
    push_cast
    ring

theorem read_summary_log_eq {fs : FileSystem} {stamp : Nat} {is_send : Bool}
    {file : LogFile} {data : List SummaryRecord}
    (hfile : fs ⟨dirLetter is_send, false, stamp⟩ = some file)
    (hparse : parseSummaryLines file.lines = .ok data) (hne : data ≠ []) :
    read_summary_log fs stamp is_send = (addPercentage data, some file.mtime) := by
  unfold read_summary_log read_summary_body
  simp only [hfile, hparse]
  rw [if_neg hne]

/-! ## Claim theorems -/

/-- C1: for every summary file whose lines all parse as well-formed
`code:count` pairs and whose counts sum to a positive total, `read_summary_log`
returns exactly one record per line, every returned record's percentage equals
its count divided by the total of the returned counts times 100, and the
percentages sum to exactly 100; in particular the spec's example file holding
`631:150` and `632:200` yields a total of 350 and percentages that round to
42.86 and 57.14 (modelled as rounding of 100 times the percentage). -/
theorem read_summary_wellformed_percentages (fs : FileSystem) (stamp : Nat)
    (is_send : Bool) (file : LogFile) (data : List SummaryRecord)
    (hfile : fs ⟨dirLetter is_send, false, stamp⟩ = some file)
    (hparse : parseSummaryLines file.lines = .ok data)
    (htotal : 0 < summaryTotal data) :
    (read_summary_log fs stamp is_send).1.length = file.lines.length ∧
    (∀ r ∈ (read_summary_log fs stamp is_send).1,
      r.percentage =
        (r.count : ℚ) / ((((read_summary_log fs stamp is_send).1.map (·.count)).sum : ℤ) : ℚ) * 100) ∧
    ((read_summary_log fs stamp is_send).1.map (·.percentage)).sum = 100 ∧
    ((read_summary_log exampleSummaryFS 0 true).1.map (·.count)).sum = 350 ∧
    (read_summary_log exampleSummaryFS 0 true).1.map
        (fun r => (r.ksd_code, round (r.percentage * 100))) =
      [("631", 4286), ("632", 5714)] := by
  have hne : data ≠ [] := by
    intro h0
    rw [h0] at htotal
    simp [summaryTotal] at htotal
  have hrs1 : (read_summary_log fs stamp is_send).1 = addPercentage data := by
    rw [read_summary_log_eq hfile hparse hne]
  have hc : ((addPercentage data).map (·.count)).sum = summaryTotal data := by
    rw [addPercentage_counts]; rfl
  have hT0 : ((summaryTotal data : ℤ) : ℚ) ≠ 0 := by
    exact_mod_cast (by omega : summaryTotal data ≠ 0)
  have hex : (read_summary_log exampleSummaryFS 0 true).1 =
      addPercentage [⟨"631", "주식 매수", 150⟩, ⟨"632", "주식 매도", 200⟩] := by
    rw [@read_summary_log_eq exampleSummaryFS 0 true
      ⟨[["631", "150"], ["632", "200"]], 0⟩
      [⟨"631", "주식 매수", 150⟩, ⟨"632", "주식 매도", 200⟩]
      (by decide) (by decide) (by decide)]
  refine ⟨?_, ?_, ?_, ?_, ?_⟩
  · rw [hrs1, addPercentage, List.length_map]
    exact parseSummaryLines_length hparse
  · rw [hrs1, hc]
    intro r hr
    exact addPercentage_mem_pct hr
  · rw [hrs1, addPercentage, sum_map_toSummaryRow_pct]
    show (((data.map (·.count)).sum : ℤ) : ℚ) / ((summaryTotal data : ℤ) : ℚ) * 100 = 100
    rw [show (data.map (·.count)).sum = summaryTotal data from rfl, div_self hT0, one_mul]
  · decide
  · rw [hex]
    simp only [addPercentage, summaryTotal, toSummaryRow, List.map_cons, List.map_nil,
      List.sum_cons, List.sum_nil]
    norm_num [round_eq]

/-- C1 witness: the theorem applied to the spec's example file. -/
theorem read_summary_wellformed_percentages_witness :
    (read_summary_log exampleSummaryFS 0 true).1.length = 2 ∧
    ((read_summary_log exampleSummaryFS 0 true).1.map (·.percentage)).sum = 100 := by
  have h := read_summary_wellformed_percentages exampleSummaryFS 0 true
    ⟨[["631", "150"], ["632", "200"]], 0⟩
    [⟨"631", "주식 매수", 150⟩, ⟨"632", "주식 매도", 200⟩] (by decide) (by decide) (by decide)
  exact ⟨h.1, h.2.2.1⟩

/-- C2: for every direction, when the summary file for the requested minute
stamp does not exist, `read_summary_log` returns the empty record list with a
null file time, and no exception is raised (even the `try:` body itself ends
in `.ok`). -/
theorem read_summary_missing_file (fs : FileSystem) (stamp : Nat) (is_send : Bool)
    (h : fs ⟨dirLetter is_send, false, stamp⟩ = none) :
    read_summary_log fs stamp is_send = ([], none) ∧
    read_summary_body fs stamp is_send = .ok ([], none) := by
  constructor
  · unfold read_summary_log read_summary_body
    rw [h]
  · unfold read_summary_body
    rw [h]

/-- C2 witness: the empty file system, send direction, stamp 0. -/
theorem read_summary_missing_file_witness :
    read_summary_log (fun _ => none) 0 true = ([], none) ∧
    read_summary_body (fun _ => none) 0 true = .ok ([], none) :=
  read_summary_missing_file (fun _ => none) 0 true rfl

/-- C3 counterexample: on a summary file whose second line is malformed, the
`try:` body of `read_summary_log` does raise, but the exception is caught by
`read_summary_log`'s own `except` clause: the caller receives the ordinary
empty result `([], none)` and no exception propagates out of the read
operation, contradicting the claim that the error is propagated to the
top-level caller and caught there. -/
theorem read_summary_malformed_not_propagated_cex :
    read_summary_body malformedSummaryFS 0 true = .error "values to unpack" ∧
    read_summary_log malformedSummaryFS 0 true = ([], none) := by
  constructor
  · decide
  · decide

/-- C3 amended: a malformed line is a fatal parse error for the whole file —
no records from the well-formed lines are returned — but the exception is
caught inside `read_summary_log` itself, which returns the empty result
`([], none)`; it does not propagate to the caller. -/
theorem read_summary_malformed_fatal_caught (fs : FileSystem) (stamp : Nat)
    (is_send : Bool) (file : LogFile) (l : Line) (e : String)
    (hfile : fs ⟨dirLetter is_send, false, stamp⟩ = some file)
    (hl : l ∈ file.lines) (herr : parseSummaryLine l = .error e) :
    (∃ e2, read_summary_body fs stamp is_send = .error e2) ∧
    read_summary_log fs stamp is_send = ([], none) := by
  rcases parseSummaryLines_error_of_mem hl herr with ⟨e2, h2⟩
  constructor
  · exact ⟨e2, by unfold read_summary_body; simp only [hfile, h2]⟩
  · unfold read_summary_log read_summary_body
    simp only [hfile, h2]

/-- C3 witness: the amended theorem applied to the malformed fixture file. -/
theorem read_summary_malformed_fatal_caught_witness :
    (∃ e2, read_summary_body malformedSummaryFS 0 true = .error e2) ∧
    read_summary_log malformedSummaryFS 0 true = ([], none) :=
  read_summary_malformed_fatal_caught malformedSummaryFS 0 true
    ⟨[["631", "150"], ["632"]], 0⟩ ["632"] "values to unpack"
    (by decide) (by decide) (by decide)

/-- C4 counterexample: with `start_time` at second 30 of minute 0 and
`end_time` at second 10 of minute 2, minute 2's timestamp 120 lies in the
closed interval [30, 130], yet the loop visits only minutes 0 and 1: a minute
of the interval is skipped when `start_time` has a nonzero second component
exceeding `end_time`'s. -/
theorem read_transactions_minute_skipped_cex :
    30 ≤ 130 ∧ 30 ≤ 2 * 60 ∧ 2 * 60 ≤ 130 ∧ 2 ∉ visitedMinutes 30 130 :=
  ⟨by decide, by decide, by decide, by decide⟩

/-- C4 amended: provided the second component of `start_time` does not exceed
that of `end_time` (in particular whenever `start_time` lies on a whole
minute), every whole minute whose timestamp lies in `[start_time, end_time]`
is among the minutes whose transaction files the loop of
`read_transaction_log` checks. -/
theorem read_transactions_visits_minutes (start stop m : Nat)
    (hsec : start % 60 ≤ stop % 60) (h1 : start ≤ m * 60) (h2 : m * 60 ≤ stop) :
    m ∈ visitedMinutes start stop := by
  have hle : start + 60 * (m - start / 60) ≤ stop := by omega
  exact List.mem_map.2
    ⟨start + 60 * (m - start / 60), mem_visitedTimes _ start stop hle, by omega⟩

/-- C4 witness: minute 1 is visited for the range [0, 60]. -/
theorem read_transactions_visits_minutes_witness :
    0 % 60 ≤ 60 % 60 ∧ 0 ≤ 1 * 60 ∧ 1 * 60 ≤ 60 ∧ 1 ∈ visitedMinutes 0 60 :=
  ⟨by decide, by decide, by decide,
    read_transactions_visits_minutes 0 60 1 (by decide) (by decide) (by decide)⟩

theorem readTranFiles_none {fs : FileSystem} {cur : Nat} :
    ∀ {ps : List String}, (∀ p ∈ ps, fs ⟨p, true, cur / 60⟩ = none) →
      readTranFiles fs cur ps = .ok [] := by
  intro ps
  induction ps with
  | nil => intro _; rfl
  | cons p ps ih =>
    intro h
    simp only [readTranFiles, readTranFile, h p (List.mem_cons_self p ps),
      ih (fun q hq => h q (List.mem_cons_of_mem p hq)), List.nil_append]

theorem readTranMinutes_none {fs : FileSystem} {dir : Option String} :
    ∀ {curs : List Nat},
      (∀ cur ∈ curs, ∀ p ∈ dirLetters dir, fs ⟨p, true, cur / 60⟩ = none) →
      readTranMinutes fs dir curs = .ok [] := by
  intro curs
  induction curs with
  | nil => intro _; rfl
  | cons c cs ih =>
    intro h
    simp only [readTranMinutes,
      readTranFiles_none (fun p hp => h c (List.mem_cons_self c cs) p hp),
      ih (fun c2 hc2 p hp => h c2 (List.mem_cons_of_mem c hc2) p hp), List.nil_append]

/-- C5: over any range and direction filter, if no transaction file exists for
any visited minute, `read_transaction_log` returns the empty record list, and
no error is raised (the `try:` body itself ends in `.ok`): every missing
per-minute file is skipped silently. -/
theorem read_transactions_no_files_empty (fs : FileSystem) (start stop : Nat)
    (dir : Option String)
    (h : ∀ cur ∈ visitedTimes start stop, ∀ p ∈ dirLetters dir,
      fs ⟨p, true, cur / 60⟩ = none) :
    read_transaction_body fs start stop dir = .ok [] ∧
    read_transaction_log fs start stop dir = [] := by
  have hb : read_transaction_body fs start stop dir = .ok [] := readTranMinutes_none h
  exact ⟨hb, by unfold read_transaction_log; rw [hb]⟩

/-- C5 witness: the empty file system over the range [0, 60] with no filter. -/
theorem read_transactions_no_files_empty_witness :
    read_transaction_body (fun _ => none) 0 60 none = .ok [] ∧
    read_transaction_log (fun _ => none) 0 60 none = [] :=
  read_transactions_no_files_empty (fun _ => none) 0 60 none (fun _ _ _ _ => rfl)

theorem read_summary_mem_bn (fs : FileSystem) (stamp : Nat) (is_send : Bool) :
    ∀ r ∈ (read_summary_log fs stamp is_send).1,
      r.business_name = businessName r.ksd_code := by
  intro r hr
  unfold read_summary_log read_summary_body at hr
  cases hf : fs ⟨dirLetter is_send, false, stamp⟩ with
  | none =>
    simp only [hf] at hr
    exact absurd hr (List.not_mem_nil r)
  | some file =>
    simp only [hf] at hr
    cases hp : parseSummaryLines file.lines with
    | error e =>
      simp only [hp] at hr
      exact absurd hr (List.not_mem_nil r)
    | ok data =>
      simp only [hp] at hr
      by_cases hd : data = []
      · rw [if_pos hd] at hr
        exact absurd hr (List.not_mem_nil r)
      · rw [if_neg hd] at hr
        rcases addPercentage_mem_code_bn hr with ⟨x, hx, hcode, hbn⟩
        rw [hbn, hcode]
        exact parseSummaryLines_mem_bn hp x hx

theorem parseTranLine_ok_bn {l : Line} {r : TranRecord}
    (h : parseTranLine l = .ok r) : r.business_name = businessName r.ksd_code := by
  unfold parseTranLine at h
  split at h
  · split at h
    · cases h; rfl
    · exact Except.noConfusion h
  · exact Except.noConfusion h

theorem parseTranLines_mem_bn :
    ∀ {ls : List Line} {rs : List TranRecord},
      parseTranLines ls = .ok rs → ∀ r ∈ rs, r.business_name = businessName r.ksd_code := by
  intro ls
  induction ls with
  | nil => intro rs h; cases h; intro r hr; exact absurd hr (List.not_mem_nil r)
  | cons l ls ih =>
    intro rs h
    unfold parseTranLines at h
    cases h1 : parseTranLine l with
    | error e => rw [h1] at h; exact Except.noConfusion h
    | ok r0 =>
      rw [h1] at h
      cases h2 : parseTranLines ls with
      | error e => rw [h2] at h; exact Except.noConfusion h
      | ok rs2 =>
        rw [h2] at h
        cases h
        intro r hr
        rcases List.mem_cons.1 hr with h3 | h3
        · subst h3; exact parseTranLine_ok_bn h1
        · exact ih h2 r h3

theorem readTranFile_mem_bn {fs : FileSystem} {p : String} {cur : Nat}
    {rows : List TranRecord} (h : readTranFile fs p cur = .ok rows) :
    ∀ r ∈ rows, r.business_name = businessName r.ksd_code := by
  unfold readTranFile at h
  cases hf : fs ⟨p, true, cur / 60⟩ with
  | none =>
    simp only [hf] at h
    cases h
    intro r hr
    exact absurd hr (List.not_mem_nil r)
  | some file =>
    simp only [hf] at h
    exact parseTranLines_mem_bn h

theorem readTranFiles_mem_bn {fs : FileSystem} {cur : Nat} :
    ∀ {ps : List String} {rows : List TranRecord},
      readTranFiles fs cur ps = .ok rows →
      ∀ r ∈ rows, r.business_name = businessName r.ksd_code := by
  intro ps
  induction ps with
  | nil => intro rows h; cases h; intro r hr; exact absurd hr (List.not_mem_nil r)
  | cons p ps ih =>
    intro rows h
    unfold readTranFiles at h
    cases h1 : readTranFile fs p cur with
    | error e => rw [h1] at h; exact Except.noConfusion h
    | ok here =>
      rw [h1] at h
      cases h2 : readTranFiles fs cur ps with
      | error e => rw [h2] at h; exact Except.noConfusion h
      | ok there =>
        rw [h2] at h
        cases h
        intro r hr
        rcases List.mem_append.1 hr with h3 | h3
        · exact readTranFile_mem_bn h1 r h3
        · exact ih h2 r h3

theorem readTranMinutes_mem_bn {fs : FileSystem} {dir : Option String} :
    ∀ {curs : List Nat} {rows : List TranRecord},
      readTranMinutes fs dir curs = .ok rows →
      ∀ r ∈ rows, r.business_name = businessName r.ksd_code := by
  intro curs
  induction curs with
  | nil => intro rows h; cases h; intro r hr; exact absurd hr (List.not_mem_nil r)
  | cons c cs ih =>
    intro rows h
    unfold readTranMinutes at h
    cases h1 : readTranFiles fs c (dirLetters dir) with
    | error e => rw [h1] at h; exact Except.noConfusion h
    | ok here =>
      rw [h1] at h
      cases h2 : readTranMinutes fs dir cs with
      | error e => rw [h2] at h; exact Except.noConfusion h
      | ok there =>
        rw [h2] at h
        cases h
        intro r hr
        rcases List.mem_append.1 hr with h3 | h3
        · exact readTranFiles_mem_bn h1 r h3
        · exact ih h2 r h3

theorem read_tran_mem_bn (fs : FileSystem) (start stop : Nat) (dir : Option String) :
    ∀ r ∈ read_transaction_log fs start stop dir,
      r.business_name = businessName r.ksd_code := by
  intro r hr
  unfold read_transaction_log at hr
  cases hb : read_transaction_body fs start stop dir with
  | error e =>
    rw [hb] at hr
    exact absurd hr (List.not_mem_nil r)
  | ok rows =>
    rw [hb] at hr
    exact readTranMinutes_mem_bn hb r hr

/-- C6: every parsed record whose code is absent from the static ten-entry
table resolves to the fixed "undefined business" placeholder label, in both
`read_summary_log` (stated through the code/label projection of its rows) and
`read_transaction_log`; the lookup is total and never raises. -/
theorem business_name_fallback (fs : FileSystem) (stamp : Nat) (is_send : Bool)
    (start stop : Nat) (dir : Option String) :
    (∀ pr ∈ (read_summary_log fs stamp is_send).1.map
        (fun r => (r.ksd_code, r.business_name)),
      pr.1 ∉ knownCodes → pr.2 = undefinedBusiness) ∧
    (∀ r ∈ read_transaction_log fs start stop dir,
      r.ksd_code ∉ knownCodes → r.business_name = undefinedBusiness) := by
  constructor
  · intro pr hpr hcode
    rcases List.mem_map.1 hpr with ⟨r, hr, rfl⟩
    exact (read_summary_mem_bn fs stamp is_send r hr).trans (businessName_not_known hcode)
  · intro r hr hcode
    exact (read_tran_mem_bn fs start stop dir r hr).trans (businessName_not_known hcode)

/-- C6 witness: a summary file carrying the unknown code 999 resolves to the
placeholder label. -/
theorem business_name_fallback_witness :
    ("999", "미정의 업무") ∈ (read_summary_log unknownCodeFS 0 true).1.map
        (fun r => (r.ksd_code, r.business_name)) ∧
    (("999", "미정의 업무") : String × String).2 = undefinedBusiness :=
  ⟨by decide, (business_name_fallback unknownCodeFS 0 true 0 0 none).1
      ("999", "미정의 업무") (by decide) (by decide)⟩

theorem insertByCountDesc_perm (r : SummaryRow) :
    ∀ xs : List SummaryRow, (insertByCountDesc r xs).Perm (r :: xs) := by
  intro xs
  induction xs with
  | nil => exact List.Perm.refl _
  | cons x xs ih =>
    unfold insertByCountDesc
    by_cases h : x.count ≤ r.count
    · rw [if_pos h]
    · rw [if_neg h]
      exact (List.Perm.cons x ih).trans (List.Perm.swap r x xs)

theorem sortByCountDesc_perm : ∀ df : List SummaryRow, (sortByCountDesc df).Perm df := by
  intro df
  induction df with
  | nil => exact List.Perm.refl _
  | cons x xs ih =>
    exact (insertByCountDesc_perm x (sortByCountDesc xs)).trans (List.Perm.cons x ih)

theorem insertByCountDesc_sorted {r : SummaryRow} :
    ∀ {xs : List SummaryRow}, xs.Pairwise (fun a b => b.count ≤ a.count) →
      (insertByCountDesc r xs).Pairwise (fun a b => b.count ≤ a.count) := by
  intro xs
  induction xs with
  | nil => intro _; exact List.pairwise_singleton _ _
  | cons x xs ih =>
    intro h
    rcases List.pairwise_cons.1 h with ⟨hx, hxs⟩
    unfold insertByCountDesc
    by_cases hc : x.count ≤ r.count
    · rw [if_pos hc]
      refine List.pairwise_cons.2 ⟨?_, h⟩
      intro y hy
      rcases List.mem_cons.1 hy with rfl | hy2
      · exact hc
      · exact le_trans (hx y hy2) hc
    · rw [if_neg hc]
      refine List.pairwise_cons.2 ⟨?_, ih hxs⟩
      intro y hy
      have hy3 := (insertByCountDesc_perm r xs).mem_iff.1 hy
      rcases List.mem_cons.1 hy3 with rfl | hy4
      · exact le_of_not_le hc
      · exact hx y hy4

theorem sortByCountDesc_sorted :
    ∀ df : List SummaryRow, (sortByCountDesc df).Pairwise (fun a b => b.count ≤ a.count) := by
  intro df
  induction df with
  | nil => exact List.Pairwise.nil
  | cons x xs ih => exact insertByCountDesc_sorted ih

/-- C7 counterexample: the display table is not literally the input records
preceded by the TOTAL pseudo-row — `create_metrics_html` sorts the records by
descending count first, so for an input listed in ascending count order the
tail of the table differs from the input. -/
theorem display_table_reorders_cex :
    data_with_total c7df ≠ totalRow c7df :: c7df := by
  intro h
  have h2 := congrArg (List.map (·.ksd_code)) h
  exact absurd h2 (by decide)

/-- C7 amended: for every non-empty record list, the display table is a single
synthetic "TOTAL" pseudo-row — with count equal to the sum of all record
counts and percentage exactly 100 — followed by the input records reordered
into non-increasing count order. -/
theorem display_table_total_row (df : List SummaryRow) (_hne : df ≠ []) :
    data_with_total df = totalRow df :: sortByCountDesc df ∧
    (sortByCountDesc df).Perm df ∧
    (sortByCountDesc df).Pairwise (fun a b => b.count ≤ a.count) ∧
    (totalRow df).ksd_code = "TOTAL" ∧
    (totalRow df).count = (df.map (·.count)).sum ∧
    (totalRow df).percentage = 100 :=
  ⟨rfl, sortByCountDesc_perm df, sortByCountDesc_sorted df, rfl, rfl, rfl⟩

/-- C7 witness: the amended theorem applied to the two-row fixture. -/
theorem display_table_total_row_witness :
    data_with_total c7df = totalRow c7df :: sortByCountDesc c7df ∧
    (sortByCountDesc c7df).Perm c7df ∧
    (sortByCountDesc c7df).Pairwise (fun a b => b.count ≤ a.count) ∧
    (totalRow c7df).ksd_code = "TOTAL" ∧
    (totalRow c7df).count = (c7df.map (·.count)).sum ∧
    (totalRow c7df).percentage = 100 :=
  display_table_total_row c7df (by decide)

theorem digitChar_isDigit {d : Nat} (h : d < 10) : (Nat.digitChar d).isDigit = true := by
  interval_cases d <;> decide

theorem charDigit_digitChar {d : Nat} (h : d < 10) : charDigit (Nat.digitChar d) = d := by
  interval_cases d <;> decide

theorem decDigitsAux_all_digit :
    ∀ fuel n, (decDigitsAux fuel n).all (·.isDigit) = true := by
  intro fuel
  induction fuel with
  | zero =>
    intro n
    cases n with
    | zero => rfl
    | succ m => rfl
  | succ f ih =>
    intro n
    cases n with
    | zero => rfl
    | succ m =>
      simp only [decDigitsAux, List.all_cons, ih,
        digitChar_isDigit (Nat.mod_lt (m + 1) (by omega)), Bool.and_self]

theorem decDigitsAux_foldl :
    ∀ fuel n acc, n ≤ fuel →
      (decDigitsAux fuel n).reverse.foldl (fun a c => a * 10 + charDigit c) acc =
        acc * 10 ^ (decDigitsAux fuel n).length + n := by
  intro fuel
  induction fuel with
  | zero =>
    intro n acc h
    have h0 : n = 0 := by omega
    subst h0
    simp [decDigitsAux]
  | succ f ih =>
    intro n acc h
    cases n with
    | zero => simp [decDigitsAux]
    | succ m =>
      have hd : (m + 1) / 10 ≤ f := by omega
      simp only [decDigitsAux, List.reverse_cons, List.foldl_append, List.foldl_cons,
        List.foldl_nil, List.length_cons]
      rw [ih ((m + 1) / 10) acc hd]
      rw [charDigit_digitChar (Nat.mod_lt (m + 1) (by omega))]
      rw [pow_succ, ← Nat.mul_assoc]
      have h2 : (m + 1) / 10 * 10 + (m + 1) % 10 = m + 1 := by omega
      rw [Nat.add_mul, Nat.add_assoc, h2]

theorem decDigitsAux_ne_nil {fuel n : Nat} (h1 : 1 ≤ n) (h2 : n ≤ fuel) :
    decDigitsAux fuel n ≠ [] := by
  cases fuel with
  | zero => omega
  | succ f =>
    cases n with
    | zero => omega
    | succ m => simp [decDigitsAux]

theorem parseTS_renderTS {t : Nat} (h : 1 ≤ t) : parseTS (renderTS t) = some t := by
  have hne : (decDigitsAux t t).reverse ≠ [] := fun h0 =>
    decDigitsAux_ne_nil h le_rfl (List.reverse_eq_nil_iff.1 h0)
  have hall : ((decDigitsAux t t).reverse.all (·.isDigit)) = true := by
    rw [List.all_reverse]
    exact decDigitsAux_all_digit t t
  have hval : digitsVal ((decDigitsAux t t).reverse) = t := by
    unfold digitsVal
    rw [decDigitsAux_foldl t t 0 le_rfl]
    simp
  show parseTS (String.mk (decDigitsAux t t).reverse) = some t
  unfold parseTS
  rw [if_pos ⟨hne, hall⟩, hval]

theorem insertLine_perm (l : Line) : ∀ xs : List Line, (insertLine l xs).Perm (l :: xs) := by
  intro xs
  induction xs with
  | nil => exact List.Perm.refl _
  | cons x xs ih =>
    unfold insertLine
    by_cases h : fieldsLe l x
    · rw [if_pos h]
    · rw [if_neg h]
      exact (List.Perm.cons x ih).trans (List.Perm.swap l x xs)

theorem sortLines_perm : ∀ ls : List Line, (sortLines ls).Perm ls := by
  intro ls
  induction ls with
  | nil => exact List.Perm.refl _
  | cons x xs ih =>
    exact (insertLine_perm x (sortLines xs)).trans (List.Perm.cons x ih)

theorem mem_of_mem_enumFrom {α : Type} {a : α} :
    ∀ {l : List α} {n i : Nat}, (i, a) ∈ l.enumFrom n → a ∈ l := by
  intro l
  induction l with
  | nil => intro n i h; exact absurd h (List.not_mem_nil _)
  | cons x xs ih =>
    intro n i h
    rcases List.mem_cons.1 h with h1 | h1
    · cases h1
      exact List.mem_cons_self _ _
    · exact List.mem_cons_of_mem _ (ih h1)

theorem genTranLines_mem {t : Nat} {draws : List TranDraw} {isSend : Bool} {l : Line}
    (h : l ∈ genTranLines t draws isSend) :
    ∃ i d, (i, d) ∈ draws.enum ∧
      l = genTranLine t i d.off (if isSend then d.sendDigit else d.recvDigit)
            (if isSend then "SEND" else "RECV") := by
  unfold genTranLines at h
  rcases List.mem_map.1 h with ⟨p, hp, rfl⟩
  exact ⟨p.1, p.2, hp, rfl⟩

theorem parseTranLine_genTranLine {t i off digit : Nat} {dir : String}
    (h : 1 ≤ t - off) :
    parseTranLine (genTranLine t i off digit dir) =
      .ok ⟨t - off, "aaaa코드bbbb_" ++ pad4 i, "63" ++ toString digit,
           businessName ("63" ++ toString digit), dir⟩ := by
  simp only [genTranLine, parseTranLine, parseTS_renderTS h]

theorem parseTranLines_ok_of_all :
    ∀ {ls : List Line}, (∀ l ∈ ls, ∃ r, parseTranLine l = .ok r) →
      ∃ rs, parseTranLines ls = .ok rs ∧ rs.length = ls.length := by
  intro ls
  induction ls with
  | nil => intro _; exact ⟨[], rfl, rfl⟩
  | cons l ls ih =>
    intro h
    rcases h l (List.mem_cons_self l ls) with ⟨r, hr⟩
    rcases ih (fun l2 hl2 => h l2 (List.mem_cons_of_mem l hl2)) with ⟨rs, hrs, hlen⟩
    exact ⟨r :: rs, by unfold parseTranLines; rw [hr, hrs], by simp [hlen]⟩

theorem parseTranLines_mem :
    ∀ {ls : List Line} {rs : List TranRecord} {l : Line} {r : TranRecord},
      parseTranLines ls = .ok rs → l ∈ ls → parseTranLine l = .ok r → r ∈ rs := by
  intro ls
  induction ls with
  | nil => intro rs l r _ hl _; exact absurd hl (List.not_mem_nil l)
  | cons l0 ls ih =>
    intro rs l r h hl hr
    unfold parseTranLines at h
    cases h1 : parseTranLine l0 with
    | error e => rw [h1] at h; exact Except.noConfusion h
    | ok r0 =>
      rw [h1] at h
      cases h2 : parseTranLines ls with
      | error e => rw [h2] at h; exact Except.noConfusion h
      | ok rs2 =>
        rw [h2] at h
        cases h
        rcases List.mem_cons.1 hl with h3 | h3
        · subst h3
          rw [h1] at hr
          cases hr
          exact List.mem_cons_self _ _
        · exact List.mem_cons_of_mem _ (ih h2 h3 hr)

theorem readTranFiles_ok_of_all {fs : FileSystem} {cur : Nat} :
    ∀ {ps : List String},
      (∀ p ∈ ps, ∀ f, fs ⟨p, true, cur / 60⟩ = some f →
        ∃ rs, parseTranLines f.lines = .ok rs) →
      ∃ rows, readTranFiles fs cur ps = .ok rows := by
  intro ps
  induction ps with
  | nil => intro _; exact ⟨[], rfl⟩
  | cons p ps ih =>
    intro h
    have h1 : ∃ here, readTranFile fs p cur = .ok here := by
      unfold readTranFile
      cases hf : fs ⟨p, true, cur / 60⟩ with
      | none => exact ⟨[], rfl⟩
      | some f => exact h p (List.mem_cons_self p ps) f hf
    rcases h1 with ⟨here, h1⟩
    rcases ih (fun q hq f hf => h q (List.mem_cons_of_mem p hq) f hf) with ⟨there, h2⟩
    exact ⟨here ++ there, by unfold readTranFiles; rw [h1, h2]⟩

theorem readTranMinutes_ok_of_all {fs : FileSystem} {dir : Option String} :
    ∀ {curs : List Nat},
      (∀ c ∈ curs, ∀ p ∈ dirLetters dir, ∀ f, fs ⟨p, true, c / 60⟩ = some f →
        ∃ rs, parseTranLines f.lines = .ok rs) →
      ∃ rows, readTranMinutes fs dir curs = .ok rows := by
  intro curs
  induction curs with
  | nil => intro _; exact ⟨[], rfl⟩
  | cons c cs ih =>
    intro h
    rcases readTranFiles_ok_of_all (fun p hp f hf => h c (List.mem_cons_self c cs) p hp f hf)
      with ⟨here, h1⟩
    rcases ih (fun c2 hc2 p hp f hf => h c2 (List.mem_cons_of_mem c hc2) p hp f hf)
      with ⟨there, h2⟩
    exact ⟨here ++ there, by unfold readTranMinutes; rw [h1, h2]⟩

theorem readTranFiles_mem {fs : FileSystem} {cur : Nat} :
    ∀ {ps : List String} {rows : List TranRecord} {p : String} {f : LogFile}
      {rs : List TranRecord} {r : TranRecord},
      readTranFiles fs cur ps = .ok rows → p ∈ ps →
      fs ⟨p, true, cur / 60⟩ = some f → parseTranLines f.lines = .ok rs → r ∈ rs →
      r ∈ rows := by
  intro ps
  induction ps with
  | nil => intro rows p f rs r _ hp _ _ _; exact absurd hp (List.not_mem_nil p)
  | cons p0 ps ih =>
    intro rows p f rs r h hp hf hparse hr
    unfold readTranFiles at h
    cases h1 : readTranFile fs p0 cur with
    | error e => rw [h1] at h; exact Except.noConfusion h
    | ok here =>
      rw [h1] at h
      cases h2 : readTranFiles fs cur ps with
      | error e => rw [h2] at h; exact Except.noConfusion h
      | ok there =>
        rw [h2] at h
        cases h
        rcases List.mem_cons.1 hp with h3 | h3
        · subst h3
          unfold readTranFile at h1
          simp only [hf] at h1
          rw [hparse] at h1
          have h4 : rs = here := Except.ok.inj h1
          exact List.mem_append.2 (Or.inl (h4 ▸ hr))
        · exact List.mem_append.2 (Or.inr (ih h2 h3 hf hparse hr))

theorem readTranMinutes_mem {fs : FileSystem} {dir : Option String} :
    ∀ {curs : List Nat} {rows : List TranRecord} {c : Nat} {p : String} {f : LogFile}
      {rs : List TranRecord} {r : TranRecord},
      readTranMinutes fs dir curs = .ok rows → c ∈ curs → p ∈ dirLetters dir →
      fs ⟨p, true, c / 60⟩ = some f → parseTranLines f.lines = .ok rs → r ∈ rs →
      r ∈ rows := by
  intro curs
  induction curs with
  | nil => intro rows c p f rs r _ hc _ _ _ _; exact absurd hc (List.not_mem_nil c)
  | cons c0 cs ih =>
    intro rows c p f rs r h hc hp hf hparse hr
    unfold readTranMinutes at h
    cases h1 : readTranFiles fs c0 (dirLetters dir) with
    | error e => rw [h1] at h; exact Except.noConfusion h
    | ok here =>
      rw [h1] at h
      cases h2 : readTranMinutes fs dir cs with
      | error e => rw [h2] at h; exact Except.noConfusion h
      | ok there =>
        rw [h2] at h
        cases h
        rcases List.mem_cons.1 hc with h3 | h3
        · subst h3
          exact List.mem_append.2 (Or.inl (readTranFiles_mem h1 hp hf hparse hr))
        · exact List.mem_append.2 (Or.inr (ih h2 h3 hp hf hparse hr))

theorem addPercentage_codes (data : List SummaryRecord) :
    (addPercentage data).map (·.ksd_code) = data.map (·.ksd_code) := by
  simp [addPercentage, toSummaryRow]

theorem generator_tran_read_length (t mt : Nat) (draws : List TranDraw) (isSend : Bool)
    (ht : 60 ≤ t) (hoff : ∀ d ∈ draws, d.off ≤ 59) :
    (read_transaction_log (generate_test_data t draws mt) t t
        (some (if isSend then "SEND" else "RECV"))).length = draws.length := by
  have hv : visitedTimes t t = [t] := by
    rw [visitedTimes_unfold, if_pos le_rfl, visitedTimes_unfold, if_neg (by omega)]
  have hletters : dirLetters (some (if isSend then "SEND" else "RECV")) =
      [if isSend then "s" else "r"] := by
    cases isSend <;> decide
  have hfile : generate_test_data t draws mt ⟨if isSend then "s" else "r", true, t / 60⟩ =
      some ⟨sortLines (genTranLines t draws isSend), mt⟩ := by
    cases isSend <;> simp [generate_test_data]
  have hall : ∀ l ∈ sortLines (genTranLines t draws isSend), ∃ r, parseTranLine l = .ok r := by
    intro l hl
    have hl2 : l ∈ genTranLines t draws isSend := (sortLines_perm _).mem_iff.1 hl
    rcases genTranLines_mem hl2 with ⟨i, d, hd, rfl⟩
    have hdm : d ∈ draws := mem_of_mem_enumFrom hd
    have hoffd := hoff d hdm
    exact ⟨_, parseTranLine_genTranLine (by omega)⟩
  rcases parseTranLines_ok_of_all hall with ⟨rs, hrs, hlen⟩
  have hfileRead : readTranFile (generate_test_data t draws mt)
      (if isSend then "s" else "r") t = .ok rs := by
    unfold readTranFile
    simp only [hfile]
    exact hrs
  have hfiles : readTranFiles (generate_test_data t draws mt) t
      [if isSend then "s" else "r"] = .ok (rs ++ []) := by
    simp only [readTranFiles, hfileRead]
  have hmin : readTranMinutes (generate_test_data t draws mt)
      (some (if isSend then "SEND" else "RECV")) [t] = .ok ((rs ++ []) ++ []) := by
    simp only [readTranMinutes, hletters, hfiles]
  have hlog : read_transaction_log (generate_test_data t draws mt) t t
      (some (if isSend then "SEND" else "RECV")) = (rs ++ []) ++ [] := by
    unfold read_transaction_log read_transaction_body
    rw [hv]
    simp only [hmin]
  have h1 : rs.length = draws.length := by
    rw [hlen, (sortLines_perm _).length_eq]
    unfold genTranLines
    rw [List.length_map, List.enum_length]
  rw [hlog]
  simp [h1]

/-- C8: round trip — with every random draw inside its `randint` range,
reading the generator's files back for the same minute yields exactly the
generated counts: `read_summary_log` returns 10 records per direction (one per
code 631..640, in table order), and `read_transaction_log` over exactly the
generated minute returns 20 records for each direction. -/
theorem generator_roundtrip_counts (t mt : Nat) (draws : List TranDraw)
    (_ht0 : t % 60 = 0) (ht : 60 ≤ t) (hlen : draws.length = 20)
    (hoff : ∀ d ∈ draws, d.off ≤ 59) :
    ((read_summary_log (generate_test_data t draws mt) (t / 60) true).1.map (·.ksd_code) =
        knownCodes ∧
      (read_summary_log (generate_test_data t draws mt) (t / 60) true).1.length = 10) ∧
    ((read_summary_log (generate_test_data t draws mt) (t / 60) false).1.map (·.ksd_code) =
        knownCodes ∧
      (read_summary_log (generate_test_data t draws mt) (t / 60) false).1.length = 10) ∧
    (read_transaction_log (generate_test_data t draws mt) t t (some "SEND")).length = 20 ∧
    (read_transaction_log (generate_test_data t draws mt) t t (some "RECV")).length = 20 := by
  have hfsS : generate_test_data t draws mt ⟨dirLetter true, false, t / 60⟩ =
      some ⟨send_summary, mt⟩ := by
    simp [generate_test_data, dirLetter]
  have hfsR : generate_test_data t draws mt ⟨dirLetter false, false, t / 60⟩ =
      some ⟨recv_summary, mt⟩ := by
    simp [generate_test_data, dirLetter]
  have hpS : parseSummaryLines send_summary = .ok
      [⟨"631", "주식 매수", 150⟩, ⟨"632", "주식 매도", 200⟩, ⟨"633", "잔고 조회", 180⟩,
       ⟨"634", "계좌 조회", 120⟩, ⟨"635", "시세 조회", 90⟩, ⟨"636", "체결 확인", 110⟩,
       ⟨"637", "예탁금 조회", 85⟩, ⟨"638", "거래내역 조회", 95⟩, ⟨"639", "계좌이체", 75⟩,
       ⟨"640", "신용거래", 60⟩] := by decide
  have hpR : parseSummaryLines recv_summary = .ok
      [⟨"631", "주식 매수", 145⟩, ⟨"632", "주식 매도", 195⟩, ⟨"633", "잔고 조회", 175⟩,
       ⟨"634", "계좌 조회", 115⟩, ⟨"635", "시세 조회", 85⟩, ⟨"636", "체결 확인", 105⟩,
       ⟨"637", "예탁금 조회", 80⟩, ⟨"638", "거래내역 조회", 90⟩, ⟨"639", "계좌이체", 70⟩,
       ⟨"640", "신용거래", 55⟩] := by decide
  have hS := read_summary_log_eq hfsS hpS (by decide)
  have hR := read_summary_log_eq hfsR hpR (by decide)
  refine ⟨⟨?_, ?_⟩, ⟨?_, ?_⟩, ?_, ?_⟩
  · rw [hS]
    show (addPercentage _).map (·.ksd_code) = knownCodes
    rw [addPercentage_codes]
    decide
  · rw [hS]
    show (addPercentage _).length = 10
    rw [addPercentage, List.length_map]
    decide
  · rw [hR]
    show (addPercentage _).map (·.ksd_code) = knownCodes
    rw [addPercentage_codes]
    decide
  · rw [hR]
    show (addPercentage _).length = 10
    rw [addPercentage, List.length_map]
    decide
  · have h := generator_tran_read_length t mt draws true ht hoff
    rw [hlen] at h
    exact h
  · have h := generator_tran_read_length t mt draws false ht hoff
    rw [hlen] at h
    exact h

/-- C8 witness: the round trip at minute start 120 with 20 concrete draws. -/
theorem generator_roundtrip_counts_witness :
    ((read_summary_log (generate_test_data 120 exampleDraws 0) (120 / 60) true).1.map
        (·.ksd_code) = knownCodes ∧
      (read_summary_log (generate_test_data 120 exampleDraws 0) (120 / 60) true).1.length = 10) ∧
    ((read_summary_log (generate_test_data 120 exampleDraws 0) (120 / 60) false).1.map
        (·.ksd_code) = knownCodes ∧
      (read_summary_log (generate_test_data 120 exampleDraws 0) (120 / 60) false).1.length = 10) ∧
    (read_transaction_log (generate_test_data 120 exampleDraws 0) 120 120
        (some "SEND")).length = 20 ∧
    (read_transaction_log (generate_test_data 120 exampleDraws 0) 120 120
        (some "RECV")).length = 20 :=
  generator_roundtrip_counts 120 0 exampleDraws (by decide) (by decide) (by decide)
    (by decide)

/-- C9 counterexample: with the current minute starting at time 60 and the
random offset drawn as 1, the generated transaction line carries timestamp 59,
which lies strictly before the start of the current minute: the generator
subtracts the offset, so the record's timestamp is not between the minute
start and its 59th second. -/
theorem generator_timestamp_before_minute_cex :
    parseTranLine (genTranLine 60 0 1 1 "SEND") =
      .ok ⟨59, "aaaa코드bbbb_0000", "631", "주식 매수", "SEND"⟩ ∧
    ¬ (60 ≤ 59 ∧ 59 ≤ 60 + 59) :=
  ⟨by decide, by decide⟩

/-- C9 amended: every transaction record written by the generator has a
randomly chosen code in 631..639, preserves its direction string, and has
timestamp `current_time - off` for an offset `off ∈ [0, 59]` — that is, the
timestamp lies in the sixty-second window ending at the start of the current
minute (between 59 seconds before the minute start and the minute start,
inclusive), not within the current minute itself. -/
theorem generator_tran_record_fields (t i off digit : Nat) (dir : String)
    (ht : 60 ≤ t) (hoff : off ≤ 59) (h1 : 1 ≤ digit) (h9 : digit ≤ 9) :
    ∃ rec, parseTranLine (genTranLine t i off digit dir) = .ok rec ∧
      rec.ksd_code = "63" ++ toString digit ∧
      rec.ksd_code ∈ codes631to639 ∧
      rec.direction = dir ∧
      t - 59 ≤ rec.timestamp ∧ rec.timestamp ≤ t := by
  refine ⟨_, parseTranLine_genTranLine (by omega), rfl, ?_, rfl,
    by show t - 59 ≤ t - off; omega, by show t - off ≤ t; omega⟩
  show ("63" ++ toString digit) ∈ codes631to639
  interval_cases digit <;> decide

/-- C9 witness: the amended theorem at minute start 120, offset 59, digit 9. -/
theorem generator_tran_record_fields_witness :
    ∃ rec, parseTranLine (genTranLine 120 3 59 9 "RECV") = .ok rec ∧
      rec.ksd_code = "63" ++ toString 9 ∧
      rec.ksd_code ∈ codes631to639 ∧
      rec.direction = "RECV" ∧
      120 - 59 ≤ rec.timestamp ∧ rec.timestamp ≤ 120 :=
  generator_tran_record_fields 120 3 59 9 "RECV" (by decide) (by decide) (by decide)
    (by decide)

/-- C10 counterexample: a transaction file matching a visited minute whose
first line is well-formed but whose second line is malformed: the well-formed
record is not included in the result — the whole read aborts and returns the
empty list — so it is not true that every well-formed line of a matching file
is included unconditionally. -/
theorem file_granularity_malformed_aborts_cex :
    60 ∈ visitedTimes 60 60 ∧
    "s" ∈ dirLetters (some "SEND") ∧
    abortTranFS ⟨"s", true, 60 / 60⟩ = some ⟨[["0", "rf", "631", "SEND"], ["bad"]], 0⟩ ∧
    parseTranLine ["0", "rf", "631", "SEND"] =
      .ok ⟨0, "rf", "631", "주식 매수", "SEND"⟩ ∧
    read_transaction_log abortTranFS 60 60 (some "SEND") = [] ∧
    (⟨0, "rf", "631", "주식 매수", "SEND"⟩ : TranRecord) ∉
      read_transaction_log abortTranFS 60 60 (some "SEND") :=
  ⟨by decide, by decide, by decide, by decide, by decide, by decide⟩

/-- C10 amended: `read_transaction_log` filters only at file granularity.
Provided every consulted existing file parses in full, every record parsed
from any file matching a visited minute and an active direction letter appears
in the result — with no per-record condition on the record's own parsed
timestamp relative to the requested range. -/
theorem read_transactions_file_granularity (fs : FileSystem) (start stop : Nat)
    (dir : Option String) (cur : Nat) (p : String) (file : LogFile)
    (l : Line) (rec : TranRecord)
    (hall : ∀ c ∈ visitedTimes start stop, ∀ q ∈ dirLetters dir, ∀ f,
      fs ⟨q, true, c / 60⟩ = some f → ∃ rs, parseTranLines f.lines = .ok rs)
    (hcur : cur ∈ visitedTimes start stop) (hp : p ∈ dirLetters dir)
    (hfile : fs ⟨p, true, cur / 60⟩ = some file)
    (hl : l ∈ file.lines) (hrec : parseTranLine l = .ok rec) :
    rec ∈ read_transaction_log fs start stop dir := by
  rcases hall cur hcur p hp file hfile with ⟨rs, hrs⟩
  have hmem : rec ∈ rs := parseTranLines_mem hrs hl hrec
  rcases @readTranMinutes_ok_of_all fs dir (visitedTimes start stop) hall with ⟨rows, hrows⟩
  have hb : read_transaction_body fs start stop dir = .ok rows := hrows
  have hlog : read_transaction_log fs start stop dir = rows := by
    unfold read_transaction_log
    rw [hb]
  rw [hlog]
  exact readTranMinutes_mem hrows hcur hp hfile hrs hmem

/-- C10 witness: a record with timestamp 0, far outside the queried range
[60, 60], is nevertheless included because its file matches visited minute 1. -/
theorem read_transactions_file_granularity_witness :
    (⟨0, "rf", "631", "주식 매수", "SEND"⟩ : TranRecord) ∈
      read_transaction_log outOfRangeTranFS 60 60 (some "SEND") ∧
    (0 : Nat) < 60 := by
  constructor
  · refine read_transactions_file_granularity outOfRangeTranFS 60 60 (some "SEND") 60 "s"
      ⟨[["0", "rf", "631", "SEND"]], 0⟩ ["0", "rf", "631", "SEND"] _
      ?_ (by decide) (by decide) (by decide) (by decide) (by decide)
    intro c _ q _ f hf
    simp only [outOfRangeTranFS] at hf
    split at hf
    · cases hf
      exact ⟨[⟨0, "rf", "631", "주식 매수", "SEND"⟩], by decide⟩
    · exact Option.noConfusion hf
  · decide
